import Mathlib

/-!
Shallow embedding of the FDCAN driver (embassy-stm32/src/can/fdcan.rs and
embassy-stm32/src/can/common.rs): frame codec, bit-timing calculator,
error classifier, operating-mode transition table, write-poll step, and
the buffered-channel guard accounting.  Bytes and 32-bit words are
modelled as Nat; fixed byte arrays as lists of the corresponding length.
-/

namespace EmbassyCan

/-! ## Frame codec (fdcan.rs, Data / TxFrame / RxFrame) -/

/-- The payload of a (FD)CAN data frame: a fixed 64-byte buffer
(`pub struct Data { bytes: [u8; 64] }`). -/
structure Data where
  bytes : List Nat
deriving DecidableEq, Repr

/-- `Data::is_valid_len`: checks if the length can be encoded in the FDCAN
DLC field (`match len { 0..=8 | 12 | 16 | 20 | 24 | 32 | 48 | 64 => true, _ => false }`). -/
def Data.is_valid_len : Nat → Bool
  | 0 | 1 | 2 | 3 | 4 | 5 | 6 | 7 | 8 => true
  | 12 => true
  | 16 => true
  | 20 => true
  | 24 => true
  | 32 => true
  | 48 => true
  | 64 => true
  | _ => false

/-- `Data::new`: rejects invalid lengths, otherwise copies the slice into the
front of a zeroed 64-byte buffer. -/
def Data.new (data : List Nat) : Option Data :=
  if ¬ Data.is_valid_len data.length then none
  else some ⟨data ++ List.replicate (64 - data.length) 0⟩

/-- `Data::empty`: the all-zero payload. -/
def Data.empty : Data := ⟨List.replicate 64 0⟩

/-- `FrameFormat` (re-exported from the fdcan crate): classic or FD frame. -/
inductive FrameFormat
  | Standard
  | Fdcan
deriving DecidableEq, Repr

/-- `Id` (re-exported from the fdcan crate): standard 11-bit or extended
29-bit identifier. -/
inductive CanId
  | Standard (raw : Nat)
  | Extended (raw : Nat)
deriving DecidableEq, Repr

/-- `TxFrameHeader` (fdcan crate): length, format, identifier,
bit-rate-switching flag and the optional message marker. -/
structure TxFrameHeader where
  len : Nat
  frame_format : FrameFormat
  id : CanId
  bit_rate_switching : Bool
  marker : Option Nat
deriving DecidableEq, Repr

/-- `RxFrameInfo` (fdcan crate): the receive-side header. -/
structure RxFrameInfo where
  len : Nat
  frame_format : FrameFormat
  id : CanId
  bit_rate_switching : Bool
deriving DecidableEq, Repr

/-- `pub struct TxFrame { header, data }`. -/
structure TxFrame where
  header : TxFrameHeader
  data : Data
deriving DecidableEq, Repr

/-- `pub struct RxFrame { header, data }`. -/
structure RxFrame where
  header : RxFrameInfo
  data : Data
deriving DecidableEq, Repr

/-- `TxFrame::new`: fails when the slice is shorter than the header length or
when `Data::new` rejects the slice length. -/
def TxFrame.new (header : TxFrameHeader) (data : List Nat) : Option TxFrame :=
  if data.length < header.len then none
  else
    match Data.new data with
    | none => none
    | some d => some ⟨header, d⟩

/-- The little-endian byte decomposition of a 32-bit word
(`u32::to_le_bytes`). -/
def u32ToLeBytes (w : Nat) : List Nat :=
  [w % 256, w / 256 % 256, w / 65536 % 256, w / 16777216 % 256]

/-- `TxFrame::from_preserved`: rebuilds the evicted frame from the preserved
little-endian 32-bit word buffer.  The source writes word i to bytes
4*i..4*i+4 of a zeroed 64-byte array, then validates with `Data::new`
(which always succeeds on the full 64-byte array). -/
def TxFrame.from_preserved (header : TxFrameHeader) (data32 : List Nat) : Option TxFrame :=
  match Data.new ((data32.map u32ToLeBytes).flatten ++ List.replicate (64 - 4 * data32.length) 0) with
  | none => none
  | some d => some ⟨header, d⟩

/-- `TxFrame::data`: the first `header.len` bytes of the buffer
(`&self.data.bytes[..header.len]`). -/
def TxFrame.dataBytes (f : TxFrame) : List Nat :=
  f.data.bytes.take f.header.len

/-- `RxFrame::new`: never fails; an invalid slice length is silently replaced
by the empty payload (`Data::new(data).unwrap_or_else(|| Data::empty())`). -/
def RxFrame.new (header : RxFrameInfo) (data : List Nat) : RxFrame :=
  ⟨header, (Data.new data).getD Data.empty⟩

/-- `RxFrame::data`: the first `header.len` bytes of the buffer. -/
def RxFrame.dataBytes (f : RxFrame) : List Nat :=
  f.data.bytes.take f.header.len

/-! ## Bit-timing calculator (fdcan.rs, calc_fdcan_timings) -/

/-- `config::NominalBitTiming`: the solution record.  In the source the
fields are NonZeroU8/NonZeroU16; here Nat with the non-zero checks made
explicit in the calculator. -/
structure NominalBitTiming where
  sync_jump_width : Nat
  prescaler : Nat
  seg1 : Nat
  seg2 : Nat
deriving DecidableEq, Repr

/-- Outcome of one run of the calculator: a solution, a no-solution failure
(`return None`), or a panic of the internal
`core::assert!(bs1_bs2_sum > bs1)`. -/
inductive CalcResult
  | panicked
  | noSolution
  | solution (t : NominalBitTiming)
deriving DecidableEq, Repr

/-- The divisor search loop of `calc_fdcan_timings`:
`while prescaler_bs % (1 + bs1_bs2_sum) != 0 { if bs1_bs2_sum <= 2 { return None } bs1_bs2_sum -= 1 }`,
started at `max_quanta_per_bit - 1` and returning the value it stops at. -/
def findBsSum (prescaler_bs : Nat) : Nat → Option Nat
  | 0 => if prescaler_bs % 1 = 0 then some 0 else none
  | s + 1 =>
    if prescaler_bs % (s + 2) = 0 then some (s + 1)
    else if s + 1 ≤ 2 then none
    else findBsSum prescaler_bs s

/-- The seg1 split targeting the 87.5% sample point with rounding to
nearest: `((7 * bs1_bs2_sum - 1) + 4) / 8`. -/
def bs1Nearest (s : Nat) : Nat := (7 * s - 1 + 4) / 8

/-- The seg1 split with rounding to zero: `(7 * bs1_bs2_sum - 1) / 8`. -/
def bs1Truncated (s : Nat) : Nat := (7 * s - 1) / 8

/-- The sample-point guard value exactly as the source computes it:
`1000 * ((1 + bs1) / (1 + bs1 + bs2)) as u16` — note the inner division is
u8 integer division, so the product is 0 whenever bs2 >= 1. -/
def samplePointPermill (bs1 bs2 : Nat) : Nat :=
  1000 * ((1 + bs1) / (1 + bs1 + bs2))

/-- Tail of `calc_fdcan_timings` after the seg1/seg2 split is fixed: the
range check on bs1/bs2, the exactness check of the reconstructed bitrate,
and the NonZero conversions (`NonZeroU8::new(..)?` / `NonZeroU16::new(prescaler as u16)?`). -/
def calcCheck (periph_clock can_bitrate prescaler bs1 bs2 : Nat) : CalcResult :=
  if bs1 < 1 ∨ bs1 > 16 ∨ bs2 < 1 ∨ bs2 > 8 then .noSolution
  else if can_bitrate ≠ periph_clock / (prescaler * (1 + bs1 + bs2)) then .noSolution
  else if (1 : Nat) = 0 then .noSolution
  else if bs1 = 0 then .noSolution
  else if bs2 = 0 then .noSolution
  else if prescaler % 65536 = 0 then .noSolution
  else .solution ⟨1, prescaler % 65536, bs1, bs2⟩

/-- Middle of `calc_fdcan_timings` once the divisor search has produced
`bs1_bs2_sum`: prescaler bound check, the assert, the sample-point guard
and the choice between the two seg1 splits. -/
def calcSplit (periph_clock can_bitrate prescaler_bs bs1_bs2_sum : Nat) : CalcResult :=
  if prescaler_bs / (1 + bs1_bs2_sum) < 1 ∨ prescaler_bs / (1 + bs1_bs2_sum) > 1024 then
    .noSolution
  else if ¬ bs1_bs2_sum > bs1Nearest bs1_bs2_sum then .panicked
  else if samplePointPermill (bs1Nearest bs1_bs2_sum) (bs1_bs2_sum - bs1Nearest bs1_bs2_sum) > 900 then
    calcCheck periph_clock can_bitrate (prescaler_bs / (1 + bs1_bs2_sum))
      (bs1Truncated bs1_bs2_sum) (bs1_bs2_sum - bs1Truncated bs1_bs2_sum)
  else
    calcCheck periph_clock can_bitrate (prescaler_bs / (1 + bs1_bs2_sum))
      (bs1Nearest bs1_bs2_sum) (bs1_bs2_sum - bs1Nearest bs1_bs2_sum)

/-- `calc_fdcan_timings(periph_clock, can_bitrate)`: reject bitrates below
1000; pick max quanta per bit (10 above 1 Mbit/s, else 17); run the divisor
search from `max_quanta_per_bit - 1`; then split and check. -/
def calc_fdcan_timings (periph_clock can_bitrate : Nat) : CalcResult :=
  if can_bitrate < 1000 then .noSolution
  else
    match findBsSum (periph_clock / can_bitrate)
        ((if can_bitrate ≥ 1000000 then 10 else 17) - 1) with
    | none => .noSolution
    | some bs1_bs2_sum =>
      calcSplit periph_clock can_bitrate (periph_clock / can_bitrate) bs1_bs2_sum

/-! ## Error classifier (fdcan.rs, BusError and curr_error) -/

/-- `pub enum BusError` (fdcan.rs). -/
inductive BusError
  | Stuff
  | Form
  | Acknowledge
  | BitRecessive
  | BitDominant
  | Crc
  | Software
  | BusOff
  | BusPassive
  | BusWarning
deriving DecidableEq, Repr

/-- `LastErrorCode` of the fdcan crate: the decoded 3-bit LEC field. -/
inductive LastErrorCode
  | NoError
  | StuffError
  | FormError
  | AckError
  | Bit1Error
  | Bit0Error
  | CRCError
  | NoChange
deriving DecidableEq, Repr

/-- Modelled from the spec: `LastErrorCode::try_from` lives in the external
fdcan crate (not in this repository); it decodes the raw 3-bit LEC register
field per the M_CAN register layout (0 = no error, 1 = stuff, 2 = form,
3 = ack, 4 = bit1, 5 = bit0, 6 = CRC, 7 = no change) and rejects
unrecognized values, which the classifier then treats as no-error. -/
def LastErrorCode.tryFrom : Nat → Option LastErrorCode
  | 0 => some .NoError
  | 1 => some .StuffError
  | 2 => some .FormError
  | 3 => some .AckError
  | 4 => some .Bit1Error
  | 5 => some .Bit0Error
  | 6 => some .CRCError
  | 7 => some .NoChange
  | _ => none

/-- `BusError::try_from(lec: LastErrorCode)` (fdcan.rs): the last-error-code
decode table; `NoError` and `NoChange` fall to the `_ => None` arm. -/
def BusError.tryFrom : LastErrorCode → Option BusError
  | .AckError => some .Acknowledge
  | .Bit0Error => some .BitRecessive
  | .Bit1Error => some .BitDominant
  | .CRCError => some .Crc
  | .FormError => some .Form
  | .StuffError => some .Stuff
  | _ => none

/-- The protocol status register fields read by `curr_error`: the bus-off,
error-passive and error-warning flags and the raw LEC field. -/
structure ProtocolStatus where
  bo : Bool
  ep : Bool
  ew : Bool
  lec : Nat
deriving DecidableEq, Repr

/-- `curr_error` (fdcan.rs): strict priority bus-off, else bus-passive, else
bus-warning, else decode the last-error code; anything else is no error. -/
def curr_error (psr : ProtocolStatus) : Option BusError :=
  if psr.bo then some .BusOff
  else if psr.ep then some .BusPassive
  else if psr.ew then some .BusWarning
  else
    match LastErrorCode.tryFrom psr.lec with
    | some lec => BusError.tryFrom lec
    | none => none

/-! ## Operating-mode transition table (fdcan.rs, impl_transition!) -/

/-- The eight hardware operating modes (`FdcanOperatingMode` impls). -/
inductive OperatingMode
  | PoweredDown
  | Config
  | InternalLoopback
  | ExternalLoopback
  | Normal
  | RestrictedOperation
  | BusMonitoring
  | Test
deriving DecidableEq, Repr

/-- The transition methods generated by the five `impl_transition!`
invocations; every pair without a generated method is unconstructible. -/
def allowed_transition : OperatingMode → OperatingMode → Bool
  | .PoweredDown, .Config => true
  | .InternalLoopback, .Config => true
  | .Config, .Normal => true
  | .Config, .ExternalLoopback => true
  | .Config, .InternalLoopback => true
  | _, _ => false

/-- A chain of mode transitions starting at a given mode: each step consumes
the previous handle and must be a generated transition method. -/
def mode_chain : OperatingMode → List OperatingMode → Bool
  | _, [] => true
  | a, b :: rest => allowed_transition a b && mode_chain b rest

/-! ## One poll step of write (fdcan.rs, Fdcan::write) -/

/-- `core::task::Poll`. -/
inductive TaskPoll (α : Type) where
  | ready (value : α)
  | pending
deriving DecidableEq, Repr

/-- The outcome of `transmit_preserve` (external fdcan crate / hardware) as
seen by the poll closure of `write`: `Ok(dropped)` where `dropped` carries,
when a lower-priority pending frame was evicted, that frame's header and
preserved 32-bit word payload (to which the driver applies its
`TxFrame::from_preserved` closure), or `Err(WouldBlock)` when every usable
slot holds an equal or higher priority frame. -/
inductive TransmitOutcome where
  | accepted (evicted : Option (TxFrameHeader × List Nat))
  | busy
deriving DecidableEq, Repr

/-- Result of one poll step of `write`: whether the tx waker was registered
during the step, and the value of the poll. -/
structure WritePollStep where
  tx_waker_registered : Bool
  result : TaskPoll (Option TxFrame)
deriving DecidableEq, Repr

/-- One poll step of `Fdcan::write`: register the tx waker first, then
attempt `transmit_preserve`; on `Ok(dropped)` complete with
`dropped.flatten()` (the decoded evicted frame, if any), on `Err` stay
pending. -/
def write_poll (hw : TransmitOutcome) : WritePollStep :=
  { tx_waker_registered := true
    result :=
      match hw with
      | .accepted evicted =>
        .ready ((evicted.map fun p => TxFrame.from_preserved p.1 p.2).join)
      | .busy => .pending }

/-- Running `write` against a sequence of hardware responses, one per poll:
the closure captures no mutable state, so each wake-up replays the identical
attempt on the next response. -/
def write_run : List TransmitOutcome → TaskPoll (Option TxFrame)
  | [] => .pending
  | hw :: rest =>
    match (write_poll hw).result with
    | .ready v => .ready v
    | .pending => write_run rest

/-! ## Buffered-channel guard accounting (common.rs) -/

/-- `InternalOperation`: the notifications delivered to the per-instance
callback by the guards. -/
inductive InternalOperation
  | NotifySenderCreated
  | NotifySenderDestroyed
  | NotifyReceiverCreated
  | NotifyReceiverDestroyed
deriving DecidableEq, Repr

/-- Lifecycle events of buffered sender/receiver handles: construction
(`TxGuard::new` / `RxGuard::new` inside the handle constructor), cloning
(`BufferedSender::clone` / `BufferedReceiver::clone`, which build a fresh
guard), and destruction (the guard Drop impls). -/
inductive HandleEvent
  | senderNew
  | senderClone
  | senderDrop
  | receiverNew
  | receiverClone
  | receiverDrop
deriving DecidableEq, Repr

/-- The notifications each handle event issues: `TxGuard::new` issues
`NotifySenderCreated` (also from `clone`, which creates a fresh guard);
`TxGuard::drop` issues `NotifySenderDestroyed`; likewise for RxGuard. -/
def notified : HandleEvent → List InternalOperation
  | .senderNew => [.NotifySenderCreated]
  | .senderClone => [.NotifySenderCreated]
  | .senderDrop => [.NotifySenderDestroyed]
  | .receiverNew => [.NotifyReceiverCreated]
  | .receiverClone => [.NotifyReceiverCreated]
  | .receiverDrop => [.NotifyReceiverDestroyed]

/-- The notification trace of a handle-event interleaving. -/
def emitted (events : List HandleEvent) : List InternalOperation :=
  (events.map notified).flatten

/-- Outstanding sender acquires minus releases over a notification trace. -/
def senderCount (ops : List InternalOperation) : Int :=
  (ops.count .NotifySenderCreated : Int) - (ops.count .NotifySenderDestroyed : Int)

/-- Outstanding receiver acquires minus releases over a notification trace. -/
def receiverCount (ops : List InternalOperation) : Int :=
  (ops.count .NotifyReceiverCreated : Int) - (ops.count .NotifyReceiverDestroyed : Int)

/-! ## Supporting lemmas -/

theorem findBsSum_mod (pbs : Nat) :
    ∀ s r, findBsSum pbs s = some r → pbs % (1 + r) = 0 := by
  intro s
  induction s with
  | zero =>
    intro r h
    simp only [findBsSum] at h
    rw [if_pos (Nat.mod_one pbs)] at h
    obtain rfl : 0 = r := by injection h
    exact Nat.mod_one pbs
  | succ n ih =>
    intro r h
    simp only [findBsSum] at h
    by_cases h1 : pbs % (n + 2) = 0
    · rw [if_pos h1] at h
      obtain rfl : n + 1 = r := by injection h
      have he : 1 + (n + 1) = n + 2 := by omega
      rw [he]
      exact h1
    · rw [if_neg h1] at h
      by_cases h2 : n + 1 ≤ 2
      · rw [if_pos h2] at h
        cases h
      · rw [if_neg h2] at h
        exact ih r h

theorem calcCheck_solution (clk br p b1 b2 : Nat) (t : NominalBitTiming)
    (h : calcCheck clk br p b1 b2 = .solution t) :
    t.sync_jump_width = 1 ∧ t.prescaler = p % 65536 ∧ t.seg1 = b1 ∧ t.seg2 = b2 ∧
    1 ≤ b1 ∧ b1 ≤ 16 ∧ 1 ≤ b2 ∧ b2 ≤ 8 ∧ br = clk / (p * (1 + b1 + b2)) := by
  unfold calcCheck at h
  by_cases h1 : b1 < 1 ∨ b1 > 16 ∨ b2 < 1 ∨ b2 > 8
  · rw [if_pos h1] at h; cases h
  rw [if_neg h1] at h
  by_cases h2 : br ≠ clk / (p * (1 + b1 + b2))
  · rw [if_pos h2] at h; cases h
  rw [if_neg h2] at h
  rw [if_neg (by omega : ¬ (1 : Nat) = 0)] at h
  by_cases h4 : b1 = 0
  · rw [if_pos h4] at h; cases h
  rw [if_neg h4] at h
  by_cases h5 : b2 = 0
  · rw [if_pos h5] at h; cases h
  rw [if_neg h5] at h
  by_cases h6 : p % 65536 = 0
  · rw [if_pos h6] at h; cases h
  rw [if_neg h6] at h
  obtain rfl : (⟨1, p % 65536, b1, b2⟩ : NominalBitTiming) = t := by injection h
  refine ⟨rfl, rfl, rfl, rfl, by omega, by omega, by omega, by omega, not_ne_iff.mp h2⟩

theorem calcSplit_solution (clk br pbs s : Nat) (t : NominalBitTiming)
    (hmod : pbs % (1 + s) = 0)
    (h : calcSplit clk br pbs s = .solution t) :
    t.sync_jump_width = 1 ∧
    1 ≤ t.prescaler ∧ t.prescaler ≤ 1024 ∧
    1 ≤ t.seg1 ∧ t.seg1 ≤ 16 ∧ 1 ≤ t.seg2 ∧ t.seg2 ≤ 8 ∧
    t.prescaler * (1 + t.seg1 + t.seg2) = pbs ∧
    br = clk / (t.prescaler * (1 + t.seg1 + t.seg2)) := by
  have hdvd : (1 + s) ∣ pbs := Nat.dvd_of_mod_eq_zero hmod
  have hcancel : pbs / (1 + s) * (1 + s) = pbs := Nat.div_mul_cancel hdvd
  unfold calcSplit at h
  by_cases h1 : pbs / (1 + s) < 1 ∨ pbs / (1 + s) > 1024
  · rw [if_pos h1] at h; cases h
  rw [if_neg h1] at h
  by_cases h2 : ¬ s > bs1Nearest s
  · rw [if_pos h2] at h; cases h
  rw [if_neg h2] at h
  have h2' : bs1Nearest s < s := not_not.mp h2
  have hble : bs1Truncated s ≤ bs1Nearest s := by
    unfold bs1Truncated bs1Nearest
    exact Nat.div_le_div_right (by omega)
  by_cases h3 : samplePointPermill (bs1Nearest s) (s - bs1Nearest s) > 900
  case pos =>
    rw [if_pos h3] at h
    -- rounding to zero branch
    obtain ⟨hs, hp, hs1, hs2, hb1l, hb1u, hb2l, hb2u, hbr⟩ :=
      calcCheck_solution _ _ _ _ _ _ h
    have hpmod : pbs / (1 + s) % 65536 = pbs / (1 + s) := Nat.mod_eq_of_lt (by omega)
    have hsum : 1 + bs1Truncated s + (s - bs1Truncated s) = 1 + s := by omega
    refine ⟨hs, by omega, by omega, by omega, by omega, by omega, by omega, ?_, ?_⟩
    · rw [hp, hs1, hs2, hpmod, hsum]
      exact hcancel
    · rw [hp, hs1, hs2, hpmod]
      exact hbr
  case neg =>
    rw [if_neg h3] at h
    -- rounding to nearest branch
    obtain ⟨hs, hp, hs1, hs2, hb1l, hb1u, hb2l, hb2u, hbr⟩ :=
      calcCheck_solution _ _ _ _ _ _ h
    have hpmod : pbs / (1 + s) % 65536 = pbs / (1 + s) := Nat.mod_eq_of_lt (by omega)
    have hsum : 1 + bs1Nearest s + (s - bs1Nearest s) = 1 + s := by omega
    refine ⟨hs, by omega, by omega, by omega, by omega, by omega, by omega, ?_, ?_⟩
    · rw [hp, hs1, hs2, hpmod, hsum]
      exact hcancel
    · rw [hp, hs1, hs2, hpmod]
      exact hbr

/-! ## Claim theorems -/

/-- C1: the sample-point bound fails on the code.  On clock 5.5 MHz and
bitrate 500 kbit/s the calculator returns seg1 = 9, seg2 = 1, whose sample
point 1000*(1+9)/(1+9+1) = 909.09‰ exceeds 900‰; the guard value the source
computes is 0 because its inner division truncates, so the truncating
recompute never fires. -/
theorem calc_fdcan_timings_sample_point_bug :
    calc_fdcan_timings 5500000 500000 = .solution ⟨1, 1, 9, 1⟩ ∧
    1000 * (1 + 9) > 900 * (1 + 9 + 1) ∧
    samplePointPermill 9 1 = 0 := by decide

/-- C2: the calculator is not total.  On clock 375 kHz and bitrate
125 kbit/s the divisor search terminates with bs1_bs2_sum = 2, the
round-to-nearest split gives bs1 = 2, and the internal
`core::assert!(bs1_bs2_sum > bs1)` fails, i.e. the function panics. -/
theorem calc_fdcan_timings_panics :
    calc_fdcan_timings 375000 125000 = .panicked ∧ bs1Nearest 2 = 2 := by decide

/-- C3: every solution the calculator returns satisfies
sync_jump_width = 1, prescaler ∈ [1,1024], seg1 ∈ [1,16], seg2 ∈ [1,8],
prescaler*(1+seg1+seg2) = clock/bitrate exactly, and the reconstructed
bitrate clock/(prescaler*(1+seg1+seg2)) equals the requested bitrate. -/
theorem calc_fdcan_timings_solution_sound (clock bitrate : Nat) (t : NominalBitTiming)
    (h : calc_fdcan_timings clock bitrate = .solution t) :
    t.sync_jump_width = 1 ∧
    1 ≤ t.prescaler ∧ t.prescaler ≤ 1024 ∧
    1 ≤ t.seg1 ∧ t.seg1 ≤ 16 ∧
    1 ≤ t.seg2 ∧ t.seg2 ≤ 8 ∧
    t.prescaler * (1 + t.seg1 + t.seg2) = clock / bitrate ∧
    clock / (t.prescaler * (1 + t.seg1 + t.seg2)) = bitrate := by
  by_cases hb : bitrate < 1000
  · unfold calc_fdcan_timings at h
    rw [if_pos hb] at h
    cases h
  · unfold calc_fdcan_timings at h
    rw [if_neg hb] at h
    rcases hf : findBsSum (clock / bitrate) ((if bitrate ≥ 1000000 then 10 else 17) - 1)
      with _ | s
    · rw [hf] at h
      cases h
    · rw [hf] at h
      have hmod := findBsSum_mod (clock / bitrate) _ s hf
      obtain ⟨hs, hp1, hp2, hs1l, hs1u, hs2l, hs2u, hpbs, hbr⟩ :=
        calcSplit_solution clock bitrate (clock / bitrate) s t hmod h
      exact ⟨hs, hp1, hp2, hs1l, hs1u, hs2l, hs2u, hpbs, by rw [← hbr]⟩

/-- Witness for C3 at clock 8 MHz, bitrate 500 kbit/s, where the calculator
returns prescaler 1, seg1 13, seg2 2. -/
theorem calc_fdcan_timings_solution_sound_witness :
    (⟨1, 1, 13, 2⟩ : NominalBitTiming).sync_jump_width = 1 ∧
    1 ≤ (⟨1, 1, 13, 2⟩ : NominalBitTiming).prescaler ∧
    (⟨1, 1, 13, 2⟩ : NominalBitTiming).prescaler ≤ 1024 ∧
    1 ≤ (⟨1, 1, 13, 2⟩ : NominalBitTiming).seg1 ∧
    (⟨1, 1, 13, 2⟩ : NominalBitTiming).seg1 ≤ 16 ∧
    1 ≤ (⟨1, 1, 13, 2⟩ : NominalBitTiming).seg2 ∧
    (⟨1, 1, 13, 2⟩ : NominalBitTiming).seg2 ≤ 8 ∧
    (⟨1, 1, 13, 2⟩ : NominalBitTiming).prescaler *
        (1 + (⟨1, 1, 13, 2⟩ : NominalBitTiming).seg1 +
          (⟨1, 1, 13, 2⟩ : NominalBitTiming).seg2) =
      8000000 / 500000 ∧
    8000000 / ((⟨1, 1, 13, 2⟩ : NominalBitTiming).prescaler *
        (1 + (⟨1, 1, 13, 2⟩ : NominalBitTiming).seg1 +
          (⟨1, 1, 13, 2⟩ : NominalBitTiming).seg2)) =
      500000 :=
  calc_fdcan_timings_solution_sound 8000000 500000 ⟨1, 1, 13, 2⟩ (by decide)

theorem is_valid_len_iff (n : Nat) :
    Data.is_valid_len n = true ↔
      n ∈ ([0, 1, 2, 3, 4, 5, 6, 7, 8, 12, 16, 20, 24, 32, 48, 64] : List Nat) := by
  by_cases hle : n ≤ 64
  · interval_cases n <;> decide
  · obtain ⟨m, rfl⟩ : ∃ m, n = m + 65 := ⟨n - 65, by omega⟩
    constructor
    · intro h
      rw [show Data.is_valid_len (m + 65) = false from rfl] at h
      cases h
    · intro h
      simp at h

theorem is_valid_len_le {n : Nat} (h : Data.is_valid_len n = true) : n ≤ 64 := by
  have := (is_valid_len_iff n).mp h
  simp at this
  omega

theorem Data_new_some {data : List Nat} {d : Data} (h : Data.new data = some d) :
    Data.is_valid_len data.length = true ∧
    d.bytes = data ++ List.replicate (64 - data.length) 0 := by
  unfold Data.new at h
  by_cases hv : Data.is_valid_len data.length = true
  · rw [if_neg (by simp [hv])] at h
    obtain rfl : (⟨data ++ List.replicate (64 - data.length) 0⟩ : Data) = d := by injection h
    exact ⟨hv, rfl⟩
  · rw [if_pos (by simp [Bool.not_eq_true] at hv ⊢; exact hv)] at h
    cases h

theorem Data_new_of_valid (data : List Nat) (hv : Data.is_valid_len data.length = true) :
    Data.new data = some ⟨data ++ List.replicate (64 - data.length) 0⟩ := by
  unfold Data.new
  rw [if_neg (by simp [hv])]

theorem Data_new_of_invalid (data : List Nat) (hv : Data.is_valid_len data.length = false) :
    Data.new data = none := by
  unfold Data.new
  rw [if_pos (by simp [hv])]

/-- C4: one poll step of write.  Registration of the tx wake signal happens
on every step; an accepted transmit with no eviction completes with None; an
accepted transmit that evicted a lower-priority pending frame completes
immediately with the frame decoded from the preserved little-endian word
buffer; a rejected transmit leaves the poll pending; and a pending step
retains no state, so the run restarts the attempt from scratch on wake. -/
theorem write_poll_spec :
    write_poll (.accepted none) = ⟨true, .ready none⟩ ∧
    (∀ hdr data32, write_poll (.accepted (some (hdr, data32))) =
      ⟨true, .ready (TxFrame.from_preserved hdr data32)⟩) ∧
    write_poll .busy = ⟨true, .pending⟩ ∧
    (∀ rest, write_run (.busy :: rest) = write_run rest) :=
  ⟨rfl, fun _ _ => rfl, rfl, fun _ => rfl⟩

/-- Witness for C4: the eviction case at a concrete header and word buffer. -/
theorem write_poll_spec_witness :
    write_poll (.accepted (some (⟨1, .Fdcan, .Standard 2, false, none⟩, [5]))) =
      ⟨true, .ready (TxFrame.from_preserved ⟨1, .Fdcan, .Standard 2, false, none⟩ [5])⟩ :=
  write_poll_spec.2.1 ⟨1, .Fdcan, .Standard 2, false, none⟩ [5]

/-- C5: the transition relation holds on exactly the five generated edges,
PoweredDown→Normal is not an edge, and any transition chain from
PoweredDown that reaches Normal passes through Config. -/
theorem mode_transition_edges :
    (∀ a b, allowed_transition a b = true ↔
      ((a = .PoweredDown ∧ b = .Config) ∨
       (a = .InternalLoopback ∧ b = .Config) ∨
       (a = .Config ∧ b = .Normal) ∨
       (a = .Config ∧ b = .ExternalLoopback) ∨
       (a = .Config ∧ b = .InternalLoopback))) ∧
    allowed_transition .PoweredDown .Normal = false ∧
    (∀ l, mode_chain .PoweredDown l = true → .Normal ∈ l → .Config ∈ l) := by
  refine ⟨fun a b => by cases a <;> cases b <;> decide, rfl, ?_⟩
  have key : ∀ (l : List OperatingMode) (a : OperatingMode),
      mode_chain a l = true → .Normal ∈ l → a = .Config ∨ .Config ∈ l := by
    intro l
    induction l with
    | nil =>
      intro a _ hm
      cases hm
    | cons b rest ih =>
      intro a hc hm
      simp only [mode_chain, Bool.and_eq_true] at hc
      rcases List.mem_cons.mp hm with rfl | hm'
      · left
        cases a <;> first | rfl | exact absurd hc.1 (by decide)
      · rcases ih b hc.2 hm' with rfl | hcfg
        · right
          exact List.mem_cons_self _ _
        · right
          exact List.mem_cons_of_mem _ hcfg
  intro l hc hm
  rcases key l .PoweredDown hc hm with h | h
  · cases h
  · exact h

/-- Witness for C5: the chain PoweredDown → Config → Normal contains Config. -/
theorem mode_transition_edges_witness :
    OperatingMode.Config ∈ ([.Config, .Normal] : List OperatingMode) :=
  mode_transition_edges.2.2 [.Config, .Normal] (by decide) (by decide)

/-- C6: error classification follows the strict priority bus-off, else
bus-passive, else bus-warning, else the last-error-code decode table, with
no-error/no-change and unrecognized codes classifying as no error; in
particular the bus-off flag wins over any last-error-code. -/
theorem curr_error_spec :
    (∀ ep ew lec, curr_error ⟨true, ep, ew, lec⟩ = some .BusOff) ∧
    (∀ ew lec, curr_error ⟨false, true, ew, lec⟩ = some .BusPassive) ∧
    (∀ lec, curr_error ⟨false, false, true, lec⟩ = some .BusWarning) ∧
    curr_error ⟨false, false, false, 0⟩ = none ∧
    curr_error ⟨false, false, false, 1⟩ = some .Stuff ∧
    curr_error ⟨false, false, false, 2⟩ = some .Form ∧
    curr_error ⟨false, false, false, 3⟩ = some .Acknowledge ∧
    curr_error ⟨false, false, false, 4⟩ = some .BitDominant ∧
    curr_error ⟨false, false, false, 5⟩ = some .BitRecessive ∧
    curr_error ⟨false, false, false, 6⟩ = some .Crc ∧
    curr_error ⟨false, false, false, 7⟩ = none ∧
    (∀ lec, 8 ≤ lec → curr_error ⟨false, false, false, lec⟩ = none) := by
  refine ⟨fun _ _ _ => rfl, fun _ _ => rfl, fun _ => rfl,
    rfl, rfl, rfl, rfl, rfl, rfl, rfl, rfl, ?_⟩
  intro lec hle
  obtain ⟨n, rfl⟩ : ∃ n, lec = n + 8 := ⟨lec - 8, by omega⟩
  rfl

/-- Witness for C6: an unrecognized code classifies as no error. -/
theorem curr_error_spec_witness :
    curr_error ⟨false, false, false, 9⟩ = none :=
  curr_error_spec.2.2.2.2.2.2.2.2.2.2.2 9 (by decide)

theorem senderCount_append (l1 l2 : List InternalOperation) :
    senderCount (l1 ++ l2) = senderCount l1 + senderCount l2 := by
  unfold senderCount
  rw [List.count_append, List.count_append]
  push_cast
  ring

theorem receiverCount_append (l1 l2 : List InternalOperation) :
    receiverCount (l1 ++ l2) = receiverCount l1 + receiverCount l2 := by
  unfold receiverCount
  rw [List.count_append, List.count_append]
  push_cast
  ring

theorem guard_counts (events : List HandleEvent) :
    senderCount (emitted events) =
      ((events.count .senderNew : Int) + events.count .senderClone) -
        events.count .senderDrop ∧
    receiverCount (emitted events) =
      ((events.count .receiverNew : Int) + events.count .receiverClone) -
        events.count .receiverDrop := by
  induction events with
  | nil => exact ⟨rfl, rfl⟩
  | cons e rest ih =>
    obtain ⟨ihs, ihr⟩ := ih
    have he : emitted (e :: rest) = notified e ++ emitted rest := rfl
    constructor
    · rw [he, senderCount_append, ihs]
      cases e <;> simp [notified, senderCount, List.count_cons] <;> omega
    · rw [he, receiverCount_append, ihr]
      cases e <;> simp [notified, receiverCount, List.count_cons] <;> omega

/-- C7: every sender-handle creation (construction or clone) issues exactly
one sender acquire and every destruction exactly one sender release, so the
outstanding sender count over any interleaving equals creations minus
destructions — in particular it is 0 once all N created handles are
dropped — and the receiver count is tracked independently in the same way. -/
theorem guard_count_balanced (events : List HandleEvent) :
    senderCount (emitted events) =
      ((events.count .senderNew : Int) + events.count .senderClone) -
        events.count .senderDrop ∧
    receiverCount (emitted events) =
      ((events.count .receiverNew : Int) + events.count .receiverClone) -
        events.count .receiverDrop ∧
    (events.count .senderDrop = events.count .senderNew + events.count .senderClone →
      senderCount (emitted events) = 0) ∧
    (events.count .receiverDrop = events.count .receiverNew + events.count .receiverClone →
      receiverCount (emitted events) = 0) := by
  obtain ⟨hs, hr⟩ := guard_counts events
  refine ⟨hs, hr, ?_, ?_⟩
  · intro hbal
    rw [hs]
    push_cast [hbal]
    ring
  · intro hbal
    rw [hr]
    push_cast [hbal]
    ring

/-- Witness for C7: two sender creations (one a clone) and two drops leave
the sender count at 0. -/
theorem guard_count_balanced_witness :
    senderCount (emitted [.senderNew, .senderClone, .senderDrop, .senderDrop]) = 0 :=
  (guard_count_balanced [.senderNew, .senderClone, .senderDrop, .senderDrop]).2.2.1
    (by decide)

/-- C8: Data::new succeeds exactly on lengths in {0..8,12,16,20,24,32,48,64}
(so it rejects 9, 10, 11, 13, 65 and every other out-of-set length, and
everything above 64), and a constructed Data holds the input as a prefix of
a 64-byte buffer. -/
theorem Data_new_spec (data : List Nat) :
    ((Data.new data).isSome = true ↔
      data.length ∈ ([0, 1, 2, 3, 4, 5, 6, 7, 8, 12, 16, 20, 24, 32, 48, 64] : List Nat)) ∧
    (64 < data.length → Data.new data = none) ∧
    (∀ d, Data.new data = some d →
      d.bytes.length = 64 ∧ d.bytes.take data.length = data) := by
  refine ⟨?_, ?_, ?_⟩
  · rw [← is_valid_len_iff]
    rcases hv : Data.is_valid_len data.length with _ | _
    · rw [Data_new_of_invalid data hv]
      simp
    · rw [Data_new_of_valid data hv]
      simp
  · intro hgt
    apply Data_new_of_invalid
    rcases hv : Data.is_valid_len data.length with _ | _
    · rfl
    · exact absurd (is_valid_len_le hv) (by omega)
  · intro d hd
    obtain ⟨hv, hb⟩ := Data_new_some hd
    have hle : data.length ≤ 64 := is_valid_len_le hv
    constructor
    · rw [hb]
      simp
      omega
    · rw [hb, List.take_left]

/-- Witness for C8: length 3 is accepted. -/
theorem Data_new_spec_witness :
    (Data.new [1, 2, 3]).isSome = true :=
  (Data_new_spec [1, 2, 3]).1.mpr (by decide)

/-- C9: TxFrame::new fails whenever the slice is shorter than the header
length, and every successfully constructed frame has data() equal to the
first header.len bytes of the input. -/
theorem TxFrame_new_spec (header : TxFrameHeader) (bytes : List Nat) :
    (bytes.length < header.len → TxFrame.new header bytes = none) ∧
    (∀ f, TxFrame.new header bytes = some f →
      f.dataBytes.length = header.len ∧ f.dataBytes = bytes.take header.len) := by
  constructor
  · intro hlt
    unfold TxFrame.new
    rw [if_pos hlt]
  · intro f hf
    unfold TxFrame.new at hf
    by_cases hlt : bytes.length < header.len
    · rw [if_pos hlt] at hf
      cases hf
    rw [if_neg hlt] at hf
    rcases hD : Data.new bytes with _ | d
    · rw [hD] at hf
      cases hf
    · rw [hD] at hf
      obtain rfl : (⟨header, d⟩ : TxFrame) = f := by injection hf
      obtain ⟨hv, hb⟩ := Data_new_some hD
      have hhle : header.len ≤ bytes.length := by omega
      have htake : (⟨header, d⟩ : TxFrame).dataBytes = bytes.take header.len := by
        unfold TxFrame.dataBytes
        rw [hb]
        exact List.take_append_of_le_length hhle
      refine ⟨?_, htake⟩
      rw [htake]
      simp
      omega

/-- Witness for C9: a header of length 2 over a 3-byte slice. -/
theorem TxFrame_new_spec_witness :
    (TxFrame.mk ⟨2, .Fdcan, .Standard 5, false, none⟩
        ⟨[7, 8, 9] ++ List.replicate 61 0⟩).dataBytes.length =
      (⟨2, .Fdcan, .Standard 5, false, none⟩ : TxFrameHeader).len ∧
    (TxFrame.mk ⟨2, .Fdcan, .Standard 5, false, none⟩
        ⟨[7, 8, 9] ++ List.replicate 61 0⟩).dataBytes =
      [7, 8, 9].take (⟨2, .Fdcan, .Standard 5, false, none⟩ : TxFrameHeader).len :=
  (TxFrame_new_spec ⟨2, .Fdcan, .Standard 5, false, none⟩ [7, 8, 9]).2
    ⟨⟨2, .Fdcan, .Standard 5, false, none⟩, ⟨[7, 8, 9] ++ List.replicate 61 0⟩⟩
    (by decide)

/-- C10: RxFrame::new never fails; on a slice whose length is not a valid
DLC length it substitutes the empty all-zero payload, while TxFrame::new
fails on the same slice whatever the header. -/
theorem RxFrame_new_substitutes_empty (header : RxFrameInfo) (bytes : List Nat)
    (h : Data.is_valid_len bytes.length = false) :
    RxFrame.new header bytes = ⟨header, Data.empty⟩ ∧
    (RxFrame.new header bytes).data.bytes = List.replicate 64 0 ∧
    (∀ th : TxFrameHeader, TxFrame.new th bytes = none) := by
  have hD : Data.new bytes = none := Data_new_of_invalid bytes h
  refine ⟨?_, ?_, ?_⟩
  · unfold RxFrame.new
    rw [hD]
    rfl
  · unfold RxFrame.new
    rw [hD]
    rfl
  · intro th
    unfold TxFrame.new
    by_cases hlt : bytes.length < th.len
    · rw [if_pos hlt]
    · rw [if_neg hlt, hD]

/-- Witness for C10: a 9-byte slice (9 is not a valid DLC length). -/
theorem RxFrame_new_substitutes_empty_witness :
    RxFrame.new ⟨9, .Fdcan, .Standard 1, false⟩ (List.replicate 9 7) =
      ⟨⟨9, .Fdcan, .Standard 1, false⟩, Data.empty⟩ ∧
    TxFrame.new ⟨9, .Fdcan, .Standard 1, false, none⟩ (List.replicate 9 7) = none :=
  ⟨(RxFrame_new_substitutes_empty ⟨9, .Fdcan, .Standard 1, false⟩
      (List.replicate 9 7) (by decide)).1,
   (RxFrame_new_substitutes_empty ⟨9, .Fdcan, .Standard 1, false⟩
      (List.replicate 9 7) (by decide)).2.2 ⟨9, .Fdcan, .Standard 1, false, none⟩⟩

end EmbassyCan
